import Mathlib

/-!
Verification development for the daw-mcp request bridge and batch
orchestrator.  The TypeScript sources are shallowly embedded: every
definition below mirrors one function of the repository (file and
function named in its doc comment); asynchronous effects are made
explicit by passing the backend replies in as parameters and by
returning the list of commands the function would issue.
-/

/-! ## Address normalizer (src/mcp-server/src/helpers/indices.ts) -/

/-- Embeds `toInternal` from indices.ts: convert 1-based user index to 0-based. -/
def toInternal (index : Int) : Int := index - 1

/-- Embeds `toUser` from indices.ts: convert 0-based internal index to 1-based. -/
def toUser (index : Int) : Int := index + 1

/-! ## Correlated channel (daw-client.ts, class DAWClient)

The pending-request `Map<string, {resolve, reject}>` is embedded as an
association list from correlation id to a caller tag (a `Nat` standing
for the promise created by `send`); the string ids produced by
`String(++this.requestId)` are in bijection with the numeric counter, so
ids are kept as `Nat`.  Settling a promise is made explicit: a step
returns `some (caller, settlement)` when it resolves or rejects a
caller, `none` when it settles nobody. -/

/-- A JSON-RPC error object (`{code, message}`). -/
structure RpcError where
  code : Int
  message : String
deriving Repr, DecidableEq

/-- An inbound response frame `{id, result?, error?}`.  The `result`
payload is opaque to the channel; it is embedded as `Option Int`. -/
structure Resp where
  id : Nat
  result : Option Int
  error : Option RpcError
deriving Repr, DecidableEq

/-- How a pending promise gets settled. -/
inductive Settlement where
  | resolved (result : Option Int)
  | rejected (message : String)
deriving Repr, DecidableEq

/-- The mutable state of one `DAWClient`: the request-id counter and the
pending map (association list, newest first, as `Map.set` with a fresh
key). -/
structure DAWClient where
  dawType : String
  requestId : Nat
  pending : List (Nat × Nat)
deriving Repr, DecidableEq

/-- Models `Map.get` on the embedded pending map. -/
def mapLookup (id : Nat) : List (Nat × Nat) → Option Nat
  | [] => none
  | (k, v) :: rest => if k = id then some v else mapLookup id rest

/-- Models `Map.delete` on the embedded pending map (keys are unique in every
reachable state, so removing every binding of `id` is `Map.delete`). -/
def mapDelete (id : Nat) (m : List (Nat × Nat)) : List (Nat × Nat) :=
  m.filter (fun p => p.1 ≠ id)

/-- The pending map never holds two entries with the same id. -/
abbrev NodupKeys (m : List (Nat × Nat)) : Prop :=
  (m.map Prod.fst).Nodup

/-- Embeds `DAWClient.send` (daw-client.ts lines 135-167), connection
management elided: allocate `++requestId`, register the Pending Entry,
write the frame.  `writeErr = some e` is the socket write callback
reporting failure `e`, in which case the entry is deleted and the caller
rejected; the armed timeout is modelled separately by
`DAWClient.timeoutCallback`.  Returns the new state, the allocated id,
and any immediate settlement. -/
def DAWClient.send (st : DAWClient) (caller : Nat) (writeErr : Option String) :
    DAWClient × Nat × Option (Nat × Settlement) :=
  let id := st.requestId + 1
  let st1 : DAWClient :=
    { st with requestId := id, pending := (id, caller) :: st.pending }
  match writeErr with
  | none => (st1, id, none)
  | some e =>
      ({ st1 with pending := mapDelete id st1.pending }, id,
        some (caller, .rejected e))

/-- The settlement `handleResponse` performs for a looked-up entry:
reject with the error message when `response.error` is present,
otherwise resolve with `response.result`. -/
def settleOf (r : Resp) : Settlement :=
  match r.error with
  | some e => .rejected e.message
  | none => .resolved r.result

/-- Embeds `DAWClient.handleResponse` (daw-client.ts lines 188-198): look the
frame id up in the pending map; if absent do nothing, otherwise delete
the entry and settle its caller per `settleOf`. -/
def DAWClient.handleResponse (st : DAWClient) (r : Resp) :
    DAWClient × Option (Nat × Settlement) :=
  match mapLookup r.id st.pending with
  | none => (st, none)
  | some caller =>
      ({ st with pending := mapDelete r.id st.pending },
        some (caller, settleOf r))

/-- The timeout closure armed by `send` (daw-client.ts lines 160-165)
for request `id`; `caller` is the promise captured by the closure (the
one registered under `id` at send time).  If the entry is still pending,
delete it and reject with the timeout error; otherwise do nothing. -/
def DAWClient.timeoutCallback (st : DAWClient) (id : Nat) (caller : Nat) :
    DAWClient × Option (Nat × Settlement) :=
  if (mapLookup id st.pending).isSome then
    ({ st with pending := mapDelete id st.pending },
      some (caller, .rejected ("Request timeout (" ++ st.dawType ++ ")")))
  else (st, none)

/-- Processing a sequence of inbound frames in order, collecting the
settlements they cause. -/
def DAWClient.processResponses (st : DAWClient) :
    List Resp → DAWClient × List (Nat × Settlement)
  | [] => (st, [])
  | r :: rs =>
      let (st1, out) := st.handleResponse r
      let (st2, outs) := DAWClient.processResponses st1 rs
      (st2, (out.toList) ++ outs)

/-! ## Backend resolver (helpers/daw-resolution.ts, daw-client.ts) -/

/-- The `DAWType` union: the two supported backends. -/
inductive DAWType where
  | bitwig
  | ableton
deriving Repr, DecidableEq

/-- One element of the array `DAWClientManager.checkConnections`
resolves with (daw-client.ts lines 280-312). -/
structure ConnStatus where
  daw : DAWType
  connected : Bool
  isDefault : Bool
  port : Int
deriving Repr, DecidableEq

/-- Embeds `DAWClientManager.checkConnections` (daw-client.ts lines 280-312):
probe both backends with a `project.getInfo` ping; `rb` / `ra` are the
probe outcomes for bitwig / ableton (true when the ping succeeded). -/
def checkConnections (rb ra : Bool) (defaultDaw : DAWType)
    (portB portA : Int) : List ConnStatus :=
  [ { daw := .bitwig, connected := rb,
      isDefault := DAWType.bitwig = defaultDaw, port := portB },
    { daw := .ableton, connected := ra,
      isDefault := DAWType.ableton = defaultDaw, port := portA } ]

/-- Embeds `resolveDaw` (helpers/daw-resolution.ts lines 16-37).  The probe
outcomes `rb ra` stand for the environment; the returned `Bool` records
whether `checkConnections` was invoked (true) or skipped because an
explicit backend was given (false). -/
def resolveDaw (explicitDaw : Option DAWType) (rb ra : Bool)
    (configDefault : DAWType) (portB portA : Int) : DAWType × Bool :=
  match explicitDaw with
  | some d => (d, false)
  | none =>
      let connections := checkConnections rb ra configDefault portB portA
      let connected := connections.filter (fun c => c.connected)
      match connected with
      | [c] => (c.daw, true)
      | _ => (configDefault, true)

/-! ## Implicit context resolver (helpers/clip-selection.ts)

The backend replies are passed in: `sel` is the object the backend
returns for `clip.getSelection`.  Each function also returns the list of
commands it issued, so the claims about which commands and delays occur
can be stated over the trace. -/

/-- Reply shape of `clip.getSelection`. -/
structure Selection where
  trackIndex : Int
  slotIndex : Int
  hasContent : Bool
  trackName : String
  clipName : String
deriving Repr, DecidableEq

/-- Commands a helper can issue toward the backend (plus the explicit
setTimeout suspensions). -/
inductive Cmd where
  | getSelection
  | select (trackIndex slotIndex : Int)
  | sleep (ms : Nat)
  | findEmptySlots (trackIndex startSlot count : Int)
  | createScene (count : Int)
deriving Repr, DecidableEq

/-- The error thrown when nothing is selected (clip-selection.ts line
34). -/
def noSlotSelectedMsg : String :=
  "No clip slot selected. Select a slot in DAW or provide trackIndex/slotIndex (1-based)."

/-- Embeds `resolveClipIndices` (clip-selection.ts lines 14-39): use 1-based
explicit indices when both are given, otherwise query the cursor
selection and fail when it reports -1.  Returns the outcome together
with the issued commands. -/
def resolveClipIndices (sel : Selection)
    (trackIndex? slotIndex? : Option Int) :
    Except String (Int × Int) × List Cmd :=
  match trackIndex?, slotIndex? with
  | some t, some s => (.ok (toInternal t, toInternal s), [])
  | _, _ =>
      if sel.trackIndex = -1 ∨ sel.slotIndex = -1 then
        (.error noSlotSelectedMsg, [.getSelection])
      else
        (.ok (sel.trackIndex, sel.slotIndex), [.getSelection])

/-- Embeds `selectClipIfNeeded` (clip-selection.ts lines 74-96): resolve the
indices, then issue `clip.select` followed by the
`config.mcp.selectionDelayMs` suspension exactly when both indices were
explicitly provided in `args`. -/
def selectClipIfNeeded (sel : Selection) (selectionDelayMs : Nat)
    (trackIndex? slotIndex? : Option Int) :
    Except String Unit × List Cmd :=
  match resolveClipIndices sel trackIndex? slotIndex? with
  | (.error e, tr) => (.error e, tr)
  | (.ok indices, tr) =>
      if trackIndex?.isSome ∧ slotIndex?.isSome then
        (.ok (), tr ++ [.select indices.1 indices.2, .sleep selectionDelayMs])
      else
        (.ok (), tr)

/-! ## Auto-remediation policy
(handlers/batch-clips.ts lines 13-55 = handlers/clips.ts lines 13-54) -/

/-- Reply shape of `clip.findEmptySlots` (clip-selection.ts lines
53-71). -/
structure FindRes where
  emptySlots : List Int
  found : Int
  requested : Int
  sceneCount : Int
deriving Repr, DecidableEq

/-- Reply shape of `clip.createScene`. -/
structure CreateSceneRes where
  success : Bool
  created : Int
  sceneCount : Int
deriving Repr, DecidableEq

/-- Embeds `findEmptySlotsWithAutoCreate` (batch-clips.ts lines 13-55): run the
capacity query; on shortfall issue one `clip.createScene` for exactly
the shortfall, and when it succeeds sleep 50ms and re-run the query
once.  `q1` and `q2` are the backend replies to the first and second
query; `create` is the reply to (or the exception thrown by)
`clip.createScene`.  Returns the final query result, the
`scenesCreated` counter, and the trace of issued commands. -/
def findEmptySlotsWithAutoCreate (q1 : FindRes)
    (create : Except String CreateSceneRes) (q2 : FindRes)
    (trackIndex startSlot count : Int) :
    (FindRes × Int) × List Cmd :=
  let tr0 : List Cmd := [.findEmptySlots trackIndex startSlot count]
  if q1.found < count then
    let scenesNeeded := count - q1.found
    match create with
    | .error _ =>
        ((q1, 0), tr0 ++ [.createScene scenesNeeded])
    | .ok createResult =>
        if createResult.success then
          ((q2, createResult.created),
            tr0 ++ [.createScene scenesNeeded, .sleep 50,
              .findEmptySlots trackIndex startSlot count])
        else
          ((q1, 0), tr0 ++ [.createScene scenesNeeded])
  else
    ((q1, 0), tr0)

/-! ## Batch orchestrator -/

/-- One entry of a batch `errors` list (`{index, error}`).  The index is
an `Int` because `handleBatchDeleteTracks` stores a converted track
index there rather than a loop position. -/
structure ErrEntry where
  index : Int
  error : String
deriving Repr, DecidableEq

/-- The aggregate shape shared by the batch handlers (`errors` is
`none` when the field is omitted from the returned object). -/
structure BatchResult where
  success : Bool
  completed : Nat
  failed : Nat
  errors : Option (List ErrEntry)
deriving Repr, DecidableEq

/-- One element of the `moves` argument of `batch_move_notes`. -/
structure Move where
  x : Int
  y : Int
  dx : Option Int
  dy : Option Int
deriving Repr, DecidableEq

/-- The per-item loop of `handleBatchMoveNotes` (batch-notes.ts lines
90-97): attempt `clip.moveNote` for every item; `outcome i` is the
backend reply to the send for item `i` (`.error e` when the await
throws).  Returns (completed, errors). -/
def moveLoop (outcome : Nat → Except String Unit) :
    List Move → Nat → Nat × List ErrEntry
  | [], _ => (0, [])
  | _ :: rest, i =>
      let r := moveLoop outcome rest (i + 1)
      match outcome i with
      | .ok _ => (r.1 + 1, r.2)
      | .error e => (r.1, ⟨(i : Int), e⟩ :: r.2)

/-- Embeds `handleBatchMoveNotes` (batch-notes.ts lines 82-105): run
`selectClipIfNeeded`, then attempt every move and aggregate.  A throw
from the selection step propagates out of the handler (`.error`). -/
def handleBatchMoveNotes (sel : Selection) (selectionDelayMs : Nat)
    (trackIndex? slotIndex? : Option Int)
    (outcome : Nat → Except String Unit) (moves : List Move) :
    Except String BatchResult :=
  match selectClipIfNeeded sel selectionDelayMs trackIndex? slotIndex? with
  | (.error e, _) => .error e
  | (.ok _, _) =>
      let r := moveLoop outcome moves 0
      .ok { success := r.2.length = 0
            completed := r.1
            failed := r.2.length
            errors := if r.2.length = 0 then none else some r.2 }

/-! ## Descending-order destructive deletion
(handlers/batch-tracks.ts, handleBatchDeleteTracks) -/

/-- The JavaScript `[...internalIndices].sort((a, b) => b - a)`: on
integers the comparator orders descending, and since equal elements are
indistinguishable every correct sort returns the same list, here
realized by insertion sort with the relation `b ≤ a`. -/
def jsSortDesc (l : List Int) : List Int :=
  l.insertionSort (fun a b => b ≤ a)

/-- The per-item loop of `handleBatchDeleteTracks` (batch-tracks.ts
lines 107-115): send `track.delete` for each already-sorted internal
index; on failure record the error under the 1-based user index
`toUser(sortedIndices[i])`.  `outcome i` is the backend reply to the
i-th send.  Returns (completed, errors, indices sent). -/
def deleteLoop (outcome : Nat → Except String Unit) :
    List Int → Nat → Nat × List ErrEntry × List Int
  | [], _ => (0, [], [])
  | idx :: rest, i =>
      let r := deleteLoop outcome rest (i + 1)
      match outcome i with
      | .ok _ => (r.1 + 1, r.2.1, idx :: r.2.2)
      | .error e => (r.1, ⟨toUser idx, e⟩ :: r.2.1, idx :: r.2.2)

/-- Embeds `handleBatchDeleteTracks` (batch-tracks.ts lines 96-123): map the
1-based caller indices to 0-based, sort descending, delete in that
order, and aggregate.  Also returns the sequence of indices sent to the
backend. -/
def handleBatchDeleteTracks (outcome : Nat → Except String Unit)
    (trackIndices : List Int) : BatchResult × List Int :=
  let internalIndices := trackIndices.map toInternal
  let sortedIndices := jsSortDesc internalIndices
  let r := deleteLoop outcome sortedIndices 0
  ({ success := r.2.1.length = 0
     completed := r.1
     failed := r.2.1.length
     errors := if r.2.1.length = 0 then none else some r.2.1 }, r.2.2)

/-! ## Safe clip creation (handlers/batch-clips.ts, handleBatchCreateClips)

Every backend reply an item can consume is supplied through an
`ItemEnv` (each item performs at most one send of each kind); `items i`
is the environment seen by item `i`. -/

/-- One element of the `clips` argument of `batch_create_clips`. -/
structure ClipSpec where
  trackIndex : Option Int
  slotIndex : Option Int
  lengthInBeats : Option Int
  name : Option String
deriving Repr, DecidableEq

/-- The backend replies available to one clip-creation item: the
`clip.hasContent` reply, the two `clip.findEmptySlots` replies and the
`clip.createScene` reply consumed by `findEmptySlotsWithAutoCreate`, and
the outcomes of `clip.delete`, `clip.create`, `clip.select` and
`clip.setName` (`.error e` models the await throwing `e`). -/
structure ItemEnv where
  hasContent : Except String Bool
  q1 : FindRes
  createScene : Except String CreateSceneRes
  q2 : FindRes
  delete : Except String Unit
  create : Except String Unit
  select : Except String Unit
  setName : Except String Unit

/-- One element of the `createdClips` result list. -/
structure CreatedClip where
  trackIndex : Int
  slotIndex : Int
  lengthInBeats : Int
  name : Option String
deriving Repr, DecidableEq

/-- Result shape of `handleBatchCreateClips`; optional fields are
`none` when the source object omits them. -/
structure CreateBatchResult where
  success : Bool
  completed : Nat
  failed : Nat
  createdClips : Option (List CreatedClip)
  sceneCount : Option Int
  scenesCreated : Option Int
  errors : Option (List ErrEntry)
deriving Repr, DecidableEq

/-- JavaScript truthiness of the optional `clip.name` string: the
`if (clip.name)` guard treats an empty string like an absent one. -/
def jsTruthyName : Option String → Option String
  | some s => if s = "" then none else some s
  | none => none

/-- The tail of one item of `handleBatchCreateClips` (batch-clips.ts
lines 288-304): `clip.create`, then `clip.select` + settle delay +
`clip.setName` when a truthy name was supplied, then record the created
clip with 1-based indices. -/
def finishCreate (env : ItemEnv) (i : Nat) (name? : Option String)
    (trackIndex slotIndex lengthInBeats : Int) :
    Except ErrEntry CreatedClip :=
  match env.create with
  | .error e => .error ⟨(i : Int), e⟩
  | .ok _ =>
      match jsTruthyName name? with
      | some nm =>
          match env.select with
          | .error e => .error ⟨(i : Int), e⟩
          | .ok _ =>
              match env.setName with
              | .error e => .error ⟨(i : Int), e⟩
              | .ok _ =>
                  .ok ⟨toUser trackIndex, toUser slotIndex, lengthInBeats,
                    some nm⟩
      | none => .ok ⟨toUser trackIndex, toUser slotIndex, lengthInBeats, none⟩

/-- The has-content refusal message (batch-clips.ts line 264). -/
def slotHasContentMsg (userSlot userTrack : Int) : String :=
  "Slot " ++ toString userSlot ++ " on track " ++ toString userTrack ++
    " has content. Use overwrite=true to replace."

/-- The mode-A exhaustion message (batch-clips.ts line 279). -/
def noEmptyFromPosMsg (userSlot sceneCount : Int) : String :=
  "No empty slots available from position " ++ toString userSlot ++
    " even after attempting to create scenes. Scene count: " ++
    toString sceneCount

/-- One item of the `handleBatchCreateClips` loop (batch-clips.ts lines
246-308): mode B (explicit slot, content check, optional overwrite
delete) or mode A (auto-find a free slot from the moving cursor with
auto scene creation, then advance the cursor).  Returns the updated
cursor slot and either the created clip or the error entry. -/
def processClip (overwrite : Bool) (cursorTrack : Int) (env : ItemEnv)
    (i : Nat) (clip : ClipSpec) (cursorSlot : Int) :
    Int × Except ErrEntry CreatedClip :=
  let lengthInBeats := clip.lengthInBeats.getD 4
  let trackIndex :=
    match clip.trackIndex with
    | some t => toInternal t
    | none => cursorTrack
  match clip.slotIndex with
  | some s =>
      let slotIndex := toInternal s
      match env.hasContent with
      | .error e => (cursorSlot, .error ⟨(i : Int), e⟩)
      | .ok hasContent =>
          if hasContent ∧ ¬overwrite then
            (cursorSlot, .error ⟨(i : Int),
              slotHasContentMsg s (clip.trackIndex.getD (toUser cursorTrack))⟩)
          else
            match (if hasContent ∧ overwrite then env.delete else .ok ()) with
            | .error e => (cursorSlot, .error ⟨(i : Int), e⟩)
            | .ok _ =>
                (cursorSlot,
                  finishCreate env i clip.name trackIndex slotIndex
                    lengthInBeats)
  | none =>
      let er :=
        (findEmptySlotsWithAutoCreate env.q1 env.createScene env.q2
          trackIndex cursorSlot 1).1.1
      if er.found = 0 then
        (cursorSlot, .error ⟨(i : Int),
          noEmptyFromPosMsg (toUser cursorSlot) er.sceneCount⟩)
      else
        let slotIndex := er.emptySlots.headD 0
        (slotIndex + 1,
          finishCreate env i clip.name trackIndex slotIndex lengthInBeats)

/-- The item loop of `handleBatchCreateClips`, threading the moving
cursor slot and aggregating (completed, errors, createdClips) in item
order. -/
def createLoop (overwrite : Bool) (cursorTrack : Int)
    (items : Nat → ItemEnv) :
    List ClipSpec → Nat → Int → Nat × List ErrEntry × List CreatedClip
  | [], _, _ => (0, [], [])
  | clip :: rest, i, cursorSlot =>
      let step := processClip overwrite cursorTrack (items i) i clip cursorSlot
      let r := createLoop overwrite cursorTrack items rest (i + 1) step.1
      match step.2 with
      | .ok cc => (r.1 + 1, r.2.1, cc :: r.2.2)
      | .error e => (r.1, e :: r.2.1, r.2.2)

/-- The empty-`clips` special case of `handleBatchCreateClips`
(batch-clips.ts lines 215-243): create one clip at the first empty slot
from the cursor, with auto scene creation. -/
def emptyCreatePath (emptyEnv : ItemEnv) (cursorTrack cursorSlot : Int) :
    CreateBatchResult :=
  let found :=
    findEmptySlotsWithAutoCreate emptyEnv.q1 emptyEnv.createScene
      emptyEnv.q2 cursorTrack cursorSlot 1
  let er := found.1.1
  let scenesCreated := found.1.2
  if er.found = 0 then
    { success := false, completed := 0, failed := 1, createdClips := none,
      sceneCount := some er.sceneCount, scenesCreated := none,
      errors := some [⟨0,
        "No empty slots available even after attempting to create scenes. Scene count: "
          ++ toString er.sceneCount⟩] }
  else
    let targetSlot := er.emptySlots.headD 0
    match emptyEnv.create with
    | .ok _ =>
        { success := true, completed := 1, failed := 0,
          createdClips := some [⟨toUser cursorTrack, toUser targetSlot, 4, none⟩],
          sceneCount := some er.sceneCount,
          scenesCreated :=
            if scenesCreated > 0 then some scenesCreated else none,
          errors := none }
    | .error e =>
        { success := false, completed := 0, failed := 1,
          createdClips := some [],
          sceneCount := some er.sceneCount,
          scenesCreated :=
            if scenesCreated > 0 then some scenesCreated else none,
          errors := some [⟨0, e⟩] }

/-- Embeds `handleBatchCreateClips` (batch-clips.ts lines 191-317): resolve
the cursor (throwing when nothing is selected), fetch the scene count
(resetting a stale cursor slot to 0), then either the empty-`clips`
special case or the per-item loop. -/
def handleBatchCreateClips (sel : Selection)
    (sceneCountRes : Except String Int) (emptyEnv : ItemEnv)
    (items : Nat → ItemEnv) (clips : Option (List ClipSpec))
    (overwrite : Bool) : Except String CreateBatchResult :=
  match (resolveClipIndices sel none none).1 with
  | .error e => .error e
  | .ok cursor =>
      match sceneCountRes with
      | .error e => .error e
      | .ok sceneCount =>
          let cursorTrack := cursor.1
          let cursorSlot := if cursor.2 ≥ sceneCount then 0 else cursor.2
          match clips with
          | none => .ok (emptyCreatePath emptyEnv cursorTrack cursorSlot)
          | some [] => .ok (emptyCreatePath emptyEnv cursorTrack cursorSlot)
          | some cs =>
              let r := createLoop overwrite cursorTrack items cs 0 cursorSlot
              .ok { success := r.2.1.length = 0
                    completed := r.1
                    failed := r.2.1.length
                    createdClips := some r.2.2
                    sceneCount := none
                    scenesCreated := none
                    errors := if r.2.1.length = 0 then none else some r.2.1 }

/-- Recognizes capacity-expansion commands in a trace. -/
def isCreateScene : Cmd → Bool
  | .createScene _ => true
  | _ => false

/-- Recognizes capacity-query commands in a trace. -/
def isCapacityQuery : Cmd → Bool
  | .findEmptySlots _ _ _ => true
  | _ => false

/-- A backend item environment in which every call succeeds and the
first capacity query already finds one empty slot. -/
def okItemEnv : ItemEnv :=
  ⟨.ok false, ⟨[0], 1, 1, 4⟩, .ok ⟨true, 0, 4⟩, ⟨[0], 1, 1, 4⟩,
    .ok (), .ok (), .ok (), .ok ()⟩

/-! ## Case lemmas for the context resolver -/

theorem resolveClipIndices_both (sel : Selection) (t s : Int) :
    resolveClipIndices sel (some t) (some s) =
      (.ok (toInternal t, toInternal s), []) := rfl

theorem resolveClipIndices_not_both (sel : Selection) (a b : Option Int)
    (h : ¬(a.isSome ∧ b.isSome)) :
    resolveClipIndices sel a b =
      (if sel.trackIndex = -1 ∨ sel.slotIndex = -1 then
        (.error noSlotSelectedMsg, [.getSelection])
      else
        (.ok (sel.trackIndex, sel.slotIndex), [.getSelection])) := by
  match a, b with
  | some t, some s => exact absurd ⟨rfl, rfl⟩ h
  | some t, none => rfl
  | none, some s => rfl
  | none, none => rfl

/-! ## Lemmas about the embedded pending map -/

theorem mapLookup_eq_of_mem {m : List (Nat × Nat)} {id c : Nat}
    (hn : NodupKeys m) (hm : (id, c) ∈ m) : mapLookup id m = some c := by
  induction m with
  | nil => cases hm
  | cons p rest ih =>
      obtain ⟨k, v⟩ := p
      rw [NodupKeys, List.map_cons, List.nodup_cons] at hn
      rcases List.mem_cons.mp hm with h | h
      · obtain ⟨rfl, rfl⟩ := Prod.mk.injEq .. ▸ h
        simp [mapLookup]
      · by_cases hk : k = id
        · subst hk
          exact absurd (List.mem_map_of_mem Prod.fst h) hn.1
        · simpa [mapLookup, hk] using ih hn.2 h

theorem mapLookup_mapDelete_self (id : Nat) (m : List (Nat × Nat)) :
    mapLookup id (mapDelete id m) = none := by
  induction m with
  | nil => rfl
  | cons p rest ih =>
      obtain ⟨k, v⟩ := p
      by_cases hk : k = id
      · simpa [mapDelete, hk] using ih
      · simpa [mapDelete, mapLookup, hk] using ih

theorem mem_mapDelete_of_ne {m : List (Nat × Nat)} {id id' c' : Nat}
    (hm : (id', c') ∈ m) (hne : id' ≠ id) : (id', c') ∈ mapDelete id m :=
  List.mem_filter.mpr ⟨hm, by simpa using hne⟩

theorem nodupKeys_mapDelete {m : List (Nat × Nat)} (id : Nat)
    (hn : NodupKeys m) : NodupKeys (mapDelete id m) :=
  List.Nodup.sublist (List.Sublist.map Prod.fst (List.filter_sublist m)) hn

theorem mapLookup_isSome_of_mem {m : List (Nat × Nat)} {id c : Nat}
    (hn : NodupKeys m) (hm : (id, c) ∈ m) :
    (mapLookup id m).isSome := by
  rw [mapLookup_eq_of_mem hn hm]; rfl

/-- Lemma: `handleResponse` keeps every pending entry whose id differs from the
frame id, and never introduces a duplicate key. -/
theorem handleResponse_preserves (st : DAWClient) (r : Resp)
    (hn : NodupKeys st.pending) :
    NodupKeys (st.handleResponse r).1.pending ∧
      ∀ id c, (id, c) ∈ st.pending → id ≠ r.id →
        (id, c) ∈ (st.handleResponse r).1.pending := by
  rw [DAWClient.handleResponse]
  cases h : mapLookup r.id st.pending with
  | none => exact ⟨hn, fun id c hm _ => hm⟩
  | some caller =>
      exact ⟨nodupKeys_mapDelete r.id hn,
        fun id c hm hne => mem_mapDelete_of_ne hm hne⟩

/-- Processing a list of frames settles the registered caller of every
frame that occurs in it (uniquely for its id), no matter where in the
sequence the frame sits. -/
theorem processResponses_settles (rs : List Resp) :
    ∀ (st : DAWClient) (r : Resp) (c : Nat), NodupKeys st.pending →
      (r.id, c) ∈ st.pending → r ∈ rs →
      (∀ r2 ∈ rs, r2.id = r.id → r2 = r) →
      (c, settleOf r) ∈ (st.processResponses rs).2 := by
  induction rs with
  | nil => intro _ _ _ _ _ h _; cases h
  | cons r0 rest ih =>
      intro st r c hn hm hr huniq
      rw [DAWClient.processResponses]
      by_cases h0 : r0 = r
      · subst h0
        rw [DAWClient.handleResponse, mapLookup_eq_of_mem hn hm]
        simp
      · have hr' : r ∈ rest := by
          rcases List.mem_cons.mp hr with h | h
          · exact absurd h.symm h0
          · exact h
        have hid : r0.id ≠ r.id := fun h =>
          h0 (huniq r0 (List.mem_cons_self r0 rest) h)
        have hpres := handleResponse_preserves st r0 hn
        have hmem := hpres.2 r.id c hm (fun h => hid h.symm)
        have := ih (st.handleResponse r0).1 r c hpres.1 hmem hr'
          (fun r2 h2 => huniq r2 (List.mem_cons_of_mem r0 h2))
        simp only [List.mem_append]
        right
        exact this

/-! ## Claim theorems -/

/-- C9: the two coordinate spaces are related by `internal = public - 1`
and the conversions round-trip on every integer, in particular on every
1-based user index. -/
theorem index_roundtrip (n : Int) :
    toUser (toInternal n) = n ∧ toInternal (toUser n) = n ∧
      toInternal n = n - 1 := by
  refine ⟨?_, ?_, rfl⟩ <;> simp [toUser, toInternal]

/-- C1: when an inbound frame id has a Pending Entry, exactly the caller
registered under that id is settled (resolved with the result when the
frame carries no error, rejected with the error message otherwise), the
entry is removed while every other entry is kept, and a frame without a
Pending Entry settles nobody; processing frames in any order settles
the registered caller of each frame. -/
theorem correlation_correct (st : DAWClient) (r : Resp) (c : Nat)
    (hn : NodupKeys st.pending) :
    ((r.id, c) ∈ st.pending →
      st.handleResponse r =
        ({ st with pending := mapDelete r.id st.pending },
          some (c, settleOf r)) ∧
      (r.error = none → settleOf r = .resolved r.result) ∧
      (∀ e, r.error = some e → settleOf r = .rejected e.message) ∧
      (∀ id' c', (id', c') ∈ st.pending → id' ≠ r.id →
        (id', c') ∈ (st.handleResponse r).1.pending)) ∧
    (mapLookup r.id st.pending = none → st.handleResponse r = (st, none)) ∧
    (∀ rs, (r.id, c) ∈ st.pending → r ∈ rs →
      (∀ r2 ∈ rs, r2.id = r.id → r2 = r) →
      (c, settleOf r) ∈ (st.processResponses rs).2) := by
  refine ⟨fun hm => ⟨?_, ?_, ?_, ?_⟩, fun habs => ?_, fun rs hm hr hu =>
    processResponses_settles rs st r c hn hm hr hu⟩
  · rw [DAWClient.handleResponse, mapLookup_eq_of_mem hn hm]
  · intro h; rw [settleOf, h]
  · intro e h; rw [settleOf, h]
  · exact fun id' c' h hne => (handleResponse_preserves st r hn).2 id' c' h hne
  · rw [DAWClient.handleResponse, habs]

/-- C1 witness: a concrete channel with two pending callers; the frame
for id 2 settles caller 20 with its result and removes only that
entry. -/
theorem correlation_correct_witness :
    DAWClient.handleResponse ⟨"bitwig", 2, [(1, 10), (2, 20)]⟩
        ⟨2, some 5, none⟩ =
      (⟨"bitwig", 2, [(1, 10)]⟩, some (20, .resolved (some 5))) :=
  ((correlation_correct ⟨"bitwig", 2, [(1, 10), (2, 20)]⟩ ⟨2, some 5, none⟩
      20 (by decide)).1 (by decide)).1

/-- C2: firing the timeout for a still-pending request removes its
Pending Entry and rejects its caller with the timeout error; a late
frame bearing that id is then silently ignored; and a subsequent `send`
on the same channel still registers a fresh Pending Entry. -/
theorem timeout_isolation (st : DAWClient) (id c : Nat)
    (hn : NodupKeys st.pending) (hm : (id, c) ∈ st.pending) :
    st.timeoutCallback id c =
      ({ st with pending := mapDelete id st.pending },
        some (c, .rejected ("Request timeout (" ++ st.dawType ++ ")"))) ∧
    (∀ r : Resp, r.id = id →
      (st.timeoutCallback id c).1.handleResponse r =
        ((st.timeoutCallback id c).1, none)) ∧
    (∀ c2, (st.timeoutCallback id c).1.send c2 none =
      ((⟨st.dawType, st.requestId + 1,
          (st.requestId + 1, c2) :: mapDelete id st.pending⟩ : DAWClient),
        st.requestId + 1, none)) := by
  have hfire : st.timeoutCallback id c =
      ({ st with pending := mapDelete id st.pending },
        some (c, .rejected ("Request timeout (" ++ st.dawType ++ ")"))) := by
    rw [DAWClient.timeoutCallback, if_pos (mapLookup_isSome_of_mem hn hm)]
  refine ⟨hfire, fun r hr => ?_, fun c2 => ?_⟩
  · rw [hfire, DAWClient.handleResponse]
    simp [hr, mapLookup_mapDelete_self]
  · rw [hfire, DAWClient.send]

/-- C2 witness: a concrete timeout on id 3 rejects caller 30 and empties
the pending map. -/
theorem timeout_isolation_witness :
    DAWClient.timeoutCallback ⟨"bitwig", 3, [(3, 30)]⟩ 3 30 =
      (⟨"bitwig", 3, []⟩, some (30, .rejected "Request timeout (bitwig)")) :=
  (timeout_isolation ⟨"bitwig", 3, [(3, 30)]⟩ 3 30 (by decide) (by decide)).1

/-- C5: an explicitly requested backend is returned without probing;
otherwise both backends are probed and a uniquely reachable one wins
over the configured default, while zero or two reachable backends fall
back to the default. -/
theorem backend_resolution (e : Option DAWType) (rb ra : Bool)
    (d : DAWType) (pB pA : Int) :
    (∀ x, e = some x → resolveDaw e rb ra d pB pA = (x, false)) ∧
    (e = none →
      (resolveDaw e rb ra d pB pA).2 = true ∧
      (rb = true → ra = false →
        (resolveDaw e rb ra d pB pA).1 = .bitwig) ∧
      (rb = false → ra = true →
        (resolveDaw e rb ra d pB pA).1 = .ableton) ∧
      (rb = ra → (resolveDaw e rb ra d pB pA).1 = d)) := by
  constructor
  · rintro x rfl; rfl
  · rintro rfl
    cases rb <;> cases ra <;>
      refine ⟨rfl, ?_, ?_, ?_⟩ <;> intros <;> simp_all <;> rfl

/-- C5 witness: with only bitwig answering the probe, resolution picks
bitwig although ableton is the configured default. -/
theorem backend_resolution_witness :
    (resolveDaw none true false DAWType.ableton 8181 8182).1 =
      DAWType.bitwig :=
  (((backend_resolution none true false DAWType.ableton 8181 8182).2
    rfl).2.1) rfl rfl

/-- C6: `selectClipIfNeeded` issues `clip.select` for the 0-based
normalized address followed by the configured selection delay exactly
when both indices were explicitly supplied; with both omitted it only
queries the cursor and issues neither a selection command nor a
delay. -/
theorem implicit_selection_delay (sel : Selection) (delay : Nat)
    (trackIndex? slotIndex? : Option Int) :
    (∀ t s, trackIndex? = some t → slotIndex? = some s →
      selectClipIfNeeded sel delay trackIndex? slotIndex? =
        (.ok (), [.select (toInternal t) (toInternal s), .sleep delay])) ∧
    (trackIndex? = none → slotIndex? = none →
      (selectClipIfNeeded sel delay trackIndex? slotIndex?).2 =
        [.getSelection] ∧
      (∀ a b, Cmd.select a b ∉
        (selectClipIfNeeded sel delay trackIndex? slotIndex?).2) ∧
      (∀ ms, Cmd.sleep ms ∉
        (selectClipIfNeeded sel delay trackIndex? slotIndex?).2)) := by
  constructor
  · rintro t s rfl rfl
    rfl
  · rintro rfl rfl
    have htr : (selectClipIfNeeded sel delay none none).2 =
        [.getSelection] := by
      rw [selectClipIfNeeded,
        resolveClipIndices_not_both sel none none (by simp)]
      by_cases h : sel.trackIndex = -1 ∨ sel.slotIndex = -1 <;> simp [h]
    refine ⟨htr, ?_, ?_⟩ <;> intros <;> rw [htr] <;> simp

/-- C6 witness: explicit user address (3, 2) yields exactly the select
command for (2, 1) followed by the 100ms delay. -/
theorem implicit_selection_delay_witness :
    selectClipIfNeeded ⟨0, 0, false, "", ""⟩ 100 (some 3) (some 2) =
      (.ok (), [.select 2 1, .sleep 100]) :=
  (implicit_selection_delay ⟨0, 0, false, "", ""⟩ 100 (some 3)
    (some 2)).1 3 2 rfl rfl

/-- C10: with exactly one of the two indices supplied,
`resolveClipIndices` behaves exactly as with both omitted — it queries
the cursor, throws the descriptive error precisely when the selection
reports -1, and otherwise returns the 0-based cursor address unchanged —
and `selectClipIfNeeded` issues no selection command and no delay. -/
theorem partial_addressing_ignored (sel : Selection) :
    (∀ t, resolveClipIndices sel (some t) none =
      resolveClipIndices sel none none) ∧
    (∀ s, resolveClipIndices sel none (some s) =
      resolveClipIndices sel none none) ∧
    (resolveClipIndices sel none none =
      (if sel.trackIndex = -1 ∨ sel.slotIndex = -1 then
        (.error noSlotSelectedMsg, [.getSelection])
      else
        (.ok (sel.trackIndex, sel.slotIndex), [.getSelection]))) ∧
    (∀ t delay, (selectClipIfNeeded sel delay (some t) none).2 =
      [.getSelection]) ∧
    (∀ s delay, (selectClipIfNeeded sel delay none (some s)).2 =
      [.getSelection]) := by
  have htrace : ∀ (a b : Option Int) (delay : Nat),
      ¬(a.isSome ∧ b.isSome) →
      (selectClipIfNeeded sel delay a b).2 = [.getSelection] := by
    intro a b delay hnot
    rw [selectClipIfNeeded, resolveClipIndices_not_both sel a b hnot]
    by_cases h : sel.trackIndex = -1 ∨ sel.slotIndex = -1
    · simp [h]
    · simp [h, hnot]
  have h1 : ∀ t, resolveClipIndices sel (some t) none =
      resolveClipIndices sel none none := fun t => by
    rw [resolveClipIndices_not_both sel (some t) none (by simp),
      resolveClipIndices_not_both sel none none (by simp)]
  have h2 : ∀ s, resolveClipIndices sel none (some s) =
      resolveClipIndices sel none none := fun s => by
    rw [resolveClipIndices_not_both sel none (some s) (by simp),
      resolveClipIndices_not_both sel none none (by simp)]
  refine ⟨h1, h2, resolveClipIndices_not_both sel none none (by simp),
    fun t delay => htrace (some t) none delay (by simp),
    fun s delay => htrace none (some s) delay (by simp)⟩

/-- C10 witness: with only a track index supplied and a valid cursor at
(4, 7), resolution returns the cursor address and the selection step
issues only the cursor query. -/
theorem partial_addressing_ignored_witness :
    resolveClipIndices ⟨4, 7, true, "", ""⟩ (some 9) none =
      (.ok (4, 7), [.getSelection]) := by
  have h := (partial_addressing_ignored ⟨4, 7, true, "", ""⟩).1 9
  rw [h]
  rfl

/-- C4: when the first capacity query already finds enough, the trace is
that single query; on a shortfall, exactly one `clip.createScene` is
issued, for exactly the shortfall, followed (on success) by the settle
delay and one re-query — never a second expansion, and at most two
queries in every case. -/
theorem auto_remediation_bounded (q1 : FindRes)
    (create : Except String CreateSceneRes) (q2 : FindRes)
    (trackIndex startSlot count : Int) :
    (q1.found ≥ count →
      (findEmptySlotsWithAutoCreate q1 create q2 trackIndex startSlot
        count).2 = [.findEmptySlots trackIndex startSlot count]) ∧
    (q1.found < count →
      ((findEmptySlotsWithAutoCreate q1 create q2 trackIndex startSlot
          count).2.countP isCreateScene = 1 ∧
        Cmd.createScene (count - q1.found) ∈
          (findEmptySlotsWithAutoCreate q1 create q2 trackIndex startSlot
            count).2 ∧
        (findEmptySlotsWithAutoCreate q1 create q2 trackIndex startSlot
          count).2.countP isCapacityQuery ≤ 2 ∧
        (∀ cr, create = .ok cr → cr.success = true →
          (findEmptySlotsWithAutoCreate q1 create q2 trackIndex startSlot
            count).2 =
            [.findEmptySlots trackIndex startSlot count,
              .createScene (count - q1.found), .sleep 50,
              .findEmptySlots trackIndex startSlot count]) ∧
        (∀ msg, create = .error msg →
          (findEmptySlotsWithAutoCreate q1 create q2 trackIndex startSlot
            count).2 =
            [.findEmptySlots trackIndex startSlot count,
              .createScene (count - q1.found)]))) := by
  constructor
  · intro hge
    rw [findEmptySlotsWithAutoCreate, if_neg (not_lt.mpr hge)]
  · intro hlt
    rcases create with msg | cr
    · rw [findEmptySlotsWithAutoCreate, if_pos hlt]
      refine ⟨rfl, by simp, by simp [isCapacityQuery], ?_, ?_⟩
      · intro cr h; cases h
      · intro m h; rfl
    · rcases hs : cr.success with _ | _
      · rw [findEmptySlotsWithAutoCreate, if_pos hlt]
        simp only [hs, if_neg Bool.false_ne_true]
        refine ⟨rfl, by simp, by simp [isCapacityQuery], ?_, ?_⟩
        · intro cr2 h hsucc
          cases h
          rw [hs] at hsucc
          cases hsucc
        · intro m h; cases h
      · rw [findEmptySlotsWithAutoCreate, if_pos hlt]
        simp only [hs, if_pos rfl]
        refine ⟨rfl, by simp, by simp [isCapacityQuery, isCreateScene], ?_, ?_⟩
        · intro cr2 h _; cases h; rfl
        · intro m h; cases h

/-- C4 witness: first query finds 0 of 2, the expansion succeeds, and
the trace is query, createScene 2, 50ms settle, query. -/
theorem auto_remediation_bounded_witness :
    (findEmptySlotsWithAutoCreate ⟨[], 0, 2, 4⟩ (.ok ⟨true, 2, 6⟩)
      ⟨[4, 5], 2, 2, 6⟩ 0 0 2).2 =
      [.findEmptySlots 0 0 2, .createScene 2, .sleep 50,
        .findEmptySlots 0 0 2] :=
  ((auto_remediation_bounded ⟨[], 0, 2, 4⟩ (.ok ⟨true, 2, 6⟩)
    ⟨[4, 5], 2, 2, 6⟩ 0 0 2).2 (by decide)).2.2.2.1 ⟨true, 2, 6⟩ rfl rfl

/-! ## Sortedness facts for descending deletion -/

theorem deleteLoop_sent (outcome : Nat → Except String Unit) :
    ∀ (l : List Int) (i : Nat), (deleteLoop outcome l i).2.2 = l := by
  intro l
  induction l with
  | nil => intro i; rfl
  | cons idx rest ih =>
      intro i
      rw [deleteLoop]
      cases outcome i <;> simp [ih (i + 1)]

/-- C7: the sequence of 0-based indices `handleBatchDeleteTracks` sends
to the backend is a permutation of the 1-based caller indices each
decremented by one, is sorted in descending order, and does not depend
on the order the caller supplied the indices. -/
theorem descending_deletion (outcome : Nat → Except String Unit)
    (trackIndices : List Int) :
    (handleBatchDeleteTracks outcome trackIndices).2.Perm
      (trackIndices.map toInternal) ∧
    List.Sorted (fun a b => b ≤ a)
      (handleBatchDeleteTracks outcome trackIndices).2 ∧
    (∀ other, trackIndices.Perm other →
      (handleBatchDeleteTracks outcome trackIndices).2 =
        (handleBatchDeleteTracks outcome other).2) := by
  haveI htot : IsTotal Int (fun a b => b ≤ a) := ⟨fun a b => le_total b a⟩
  haveI htrans : IsTrans Int (fun a b => b ≤ a) :=
    ⟨fun _ _ _ h1 h2 => le_trans h2 h1⟩
  haveI hanti : IsAntisymm Int (fun a b => b ≤ a) :=
    ⟨fun _ _ h1 h2 => le_antisymm h2 h1⟩
  have hsent : ∀ ts : List Int,
      (handleBatchDeleteTracks outcome ts).2 =
        jsSortDesc (ts.map toInternal) := by
    intro ts
    rw [handleBatchDeleteTracks]
    exact deleteLoop_sent outcome _ 0
  refine ⟨?_, ?_, ?_⟩
  · rw [hsent]
    exact List.perm_insertionSort _ _
  · rw [hsent]
    exact List.sorted_insertionSort _ _
  · intro other hperm
    rw [hsent, hsent]
    refine List.eq_of_perm_of_sorted ?_ (List.sorted_insertionSort _ _)
      (List.sorted_insertionSort _ _)
    exact ((List.perm_insertionSort _ _).trans (hperm.map toInternal)).trans
      (List.perm_insertionSort _ _).symm

/-- C7 witness: two orderings of the same user indices produce the same
descending 0-based deletion sequence. -/
theorem descending_deletion_witness :
    (handleBatchDeleteTracks (fun _ => Except.ok ()) [3, 1, 2]).2 =
      (handleBatchDeleteTracks (fun _ => Except.ok ()) [2, 3, 1]).2 :=
  (descending_deletion (fun _ => Except.ok ()) [3, 1, 2]).2.2 [2, 3, 1]
    (by decide)

/-! ## Aggregation lemmas for the batch loops -/

theorem moveLoop_count (outcome : Nat → Except String Unit) :
    ∀ (l : List Move) (i : Nat),
      (moveLoop outcome l i).1 + (moveLoop outcome l i).2.length =
        l.length := by
  intro l
  induction l with
  | nil => intro i; rfl
  | cons m rest ih =>
      intro i
      have h := ih (i + 1)
      rw [moveLoop]
      cases outcome i <;> dsimp only <;>
        simp only [List.length_cons] <;> omega

theorem createLoop_count (overwrite : Bool) (cursorTrack : Int)
    (items : Nat → ItemEnv) :
    ∀ (cs : List ClipSpec) (i : Nat) (cursorSlot : Int),
      (createLoop overwrite cursorTrack items cs i cursorSlot).1 +
        (createLoop overwrite cursorTrack items cs i cursorSlot).2.1.length =
        cs.length := by
  intro cs
  induction cs with
  | nil => intro i cur; rfl
  | cons c rest ih =>
      intro i cur
      have h := ih (i + 1)
        ((processClip overwrite cursorTrack (items i) i c cur).1)
      rw [createLoop]
      cases (processClip overwrite cursorTrack (items i) i c cur).2 <;>
        dsimp only <;> simp only [List.length_cons] <;> omega

theorem moveLoop_errors_mem (outcome : Nat → Except String Unit) :
    ∀ (l : List Move) (i : Nat) (ent : ErrEntry),
      ent ∈ (moveLoop outcome l i).2 ↔
        ∃ k, k < l.length ∧ outcome (i + k) = .error ent.error ∧
          ent.index = ((i + k : Nat) : Int) := by
  intro l
  induction l with
  | nil => intro i ent; simp [moveLoop]
  | cons m rest ih =>
      intro i ent
      rw [moveLoop]
      rcases ho : outcome i with e | u
      · dsimp only
        rw [List.mem_cons]
        constructor
        · rintro (rfl | h)
          · exact ⟨0, by simp, by rw [Nat.add_zero, ho], by simp⟩
          · obtain ⟨k, hk, hout, hidx⟩ := (ih (i + 1) ent).mp h
            have hsum : i + (k + 1) = i + 1 + k := by omega
            exact ⟨k + 1, by simp only [List.length_cons]; omega,
              by rw [hsum]; exact hout, by rw [hsum]; exact hidx⟩
        · rintro ⟨k, hk, hout, hidx⟩
          rcases k with _ | k
          · left
            rw [Nat.add_zero] at hout hidx
            rw [ho] at hout
            injection hout with he
            cases ent
            rw [ErrEntry.mk.injEq]
            exact ⟨by simpa using hidx, he.symm⟩
          · right
            have hsum : i + 1 + k = i + (k + 1) := by omega
            exact (ih (i + 1) ent).mpr
              ⟨k, by simp only [List.length_cons] at hk; omega,
                by rw [hsum]; exact hout, by rw [hsum]; exact hidx⟩
      · dsimp only
        constructor
        · intro h
          obtain ⟨k, hk, hout, hidx⟩ := (ih (i + 1) ent).mp h
          have hsum : i + (k + 1) = i + 1 + k := by omega
          exact ⟨k + 1, by simp only [List.length_cons]; omega,
            by rw [hsum]; exact hout, by rw [hsum]; exact hidx⟩
        · rintro ⟨k, hk, hout, hidx⟩
          rcases k with _ | k
          · rw [Nat.add_zero, ho] at hout
            cases hout
          · have hsum : i + 1 + k = i + (k + 1) := by omega
            exact (ih (i + 1) ent).mpr
              ⟨k, by simp only [List.length_cons] at hk; omega,
                by rw [hsum]; exact hout, by rw [hsum]; exact hidx⟩

/-- The `errors` field is spread into the result object only when the
collected list is non-empty; reading it back with an empty default
recovers the collected list in both cases. -/
theorem errorsField_getD (errs : List ErrEntry) :
    (if errs.length = 0 then none else some errs).getD
      ([] : List ErrEntry) = errs := by
  by_cases h : errs.length = 0
  · rw [if_pos h]
    exact (List.length_eq_zero.mp h).symm
  · rw [if_neg h]
    rfl

theorem deleteLoop_errors_mem (outcome : Nat → Except String Unit) :
    ∀ (l : List Int) (i : Nat) (ent : ErrEntry),
      ent ∈ (deleteLoop outcome l i).2.1 ↔
        ∃ k, k < l.length ∧ outcome (i + k) = .error ent.error ∧
          ent.index = toUser (l.getD k 0) := by
  intro l
  induction l with
  | nil => intro i ent; simp [deleteLoop]
  | cons idx rest ih =>
      intro i ent
      rw [deleteLoop]
      rcases ho : outcome i with e | u
      · dsimp only
        rw [List.mem_cons]
        constructor
        · rintro (rfl | h)
          · exact ⟨0, by simp, by rw [Nat.add_zero, ho], by simp⟩
          · obtain ⟨k, hk, hout, hidx⟩ := (ih (i + 1) ent).mp h
            have hsum : i + (k + 1) = i + 1 + k := by omega
            exact ⟨k + 1, by simp only [List.length_cons]; omega,
              by rw [hsum]; exact hout,
              by rw [List.getD_cons_succ]; exact hidx⟩
        · rintro ⟨k, hk, hout, hidx⟩
          rcases k with _ | k
          · left
            rw [Nat.add_zero] at hout
            rw [ho] at hout
            injection hout with he
            rw [List.getD_cons_zero] at hidx
            cases ent
            rw [ErrEntry.mk.injEq]
            exact ⟨by simpa using hidx, he.symm⟩
          · right
            have hsum : i + 1 + k = i + (k + 1) := by omega
            rw [List.getD_cons_succ] at hidx
            exact (ih (i + 1) ent).mpr
              ⟨k, by simp only [List.length_cons] at hk; omega,
                by rw [hsum]; exact hout, hidx⟩
      · dsimp only
        constructor
        · intro h
          obtain ⟨k, hk, hout, hidx⟩ := (ih (i + 1) ent).mp h
          have hsum : i + (k + 1) = i + 1 + k := by omega
          exact ⟨k + 1, by simp only [List.length_cons]; omega,
            by rw [hsum]; exact hout,
            by rw [List.getD_cons_succ]; exact hidx⟩
        · rintro ⟨k, hk, hout, hidx⟩
          rcases k with _ | k
          · rw [Nat.add_zero, ho] at hout
            cases hout
          · have hsum : i + 1 + k = i + (k + 1) := by omega
            rw [List.getD_cons_succ] at hidx
            exact (ih (i + 1) ent).mpr
              ⟨k, by simp only [List.length_cons] at hk; omega,
                by rw [hsum]; exact hout, hidx⟩

/-- C3 (amended): once the per-call setup has succeeded, given a
non-empty caller-supplied list of n items both cited batch handlers
attempt every item — no single item error aborts the batch — and
return completed + failed = n, success iff failed = 0, and an errors
field present exactly when at least one item failed. -/
theorem batch_partial_failure (sel : Selection) (delay : Nat)
    (trackIndex? slotIndex? : Option Int)
    (outcome : Nat → Except String Unit) (moves : List Move)
    (sceneCountRes : Except String Int) (emptyEnv : ItemEnv)
    (items : Nat → ItemEnv) (cs : List ClipSpec) (overwrite : Bool) :
    ((selectClipIfNeeded sel delay trackIndex? slotIndex?).1 = .ok () →
      ∃ res, handleBatchMoveNotes sel delay trackIndex? slotIndex? outcome
          moves = .ok res ∧
        res.completed + res.failed = moves.length ∧
        (res.success = true ↔ res.failed = 0) ∧
        (res.errors = none ↔ res.failed = 0)) ∧
    (cs ≠ [] → ∀ cur, (resolveClipIndices sel none none).1 = .ok cur →
      ∀ n, sceneCountRes = .ok n →
      ∃ res, handleBatchCreateClips sel sceneCountRes emptyEnv items
          (some cs) overwrite = .ok res ∧
        res.completed + res.failed = cs.length ∧
        (res.success = true ↔ res.failed = 0) ∧
        (res.errors = none ↔ res.failed = 0)) := by
  constructor
  · intro hok
    rcases hsel : selectClipIfNeeded sel delay trackIndex? slotIndex?
      with ⟨o, tr⟩
    rw [hsel] at hok
    dsimp only at hok
    subst hok
    have heq : handleBatchMoveNotes sel delay trackIndex? slotIndex?
        outcome moves =
        .ok ⟨(moveLoop outcome moves 0).2.length = 0,
          (moveLoop outcome moves 0).1,
          (moveLoop outcome moves 0).2.length,
          if (moveLoop outcome moves 0).2.length = 0 then none
          else some (moveLoop outcome moves 0).2⟩ := by
      rw [handleBatchMoveNotes, hsel]
    refine ⟨_, heq, ?_, ?_, ?_⟩
    · dsimp only
      exact moveLoop_count outcome moves 0
    · dsimp only
      simp
    · dsimp only
      by_cases h : (moveLoop outcome moves 0).2.length = 0 <;> simp [h]
  · intro hne cur hcur n hsc
    subst hsc
    rcases cs with _ | ⟨c, rest⟩
    · exact absurd rfl hne
    · have heq : handleBatchCreateClips sel (.ok n) emptyEnv items
          (some (c :: rest)) overwrite =
          .ok ⟨(createLoop overwrite cur.1 items (c :: rest) 0
              (if cur.2 ≥ n then 0 else cur.2)).2.1.length = 0,
            (createLoop overwrite cur.1 items (c :: rest) 0
              (if cur.2 ≥ n then 0 else cur.2)).1,
            (createLoop overwrite cur.1 items (c :: rest) 0
              (if cur.2 ≥ n then 0 else cur.2)).2.1.length,
            some (createLoop overwrite cur.1 items (c :: rest) 0
              (if cur.2 ≥ n then 0 else cur.2)).2.2,
            none, none,
            if (createLoop overwrite cur.1 items (c :: rest) 0
                (if cur.2 ≥ n then 0 else cur.2)).2.1.length = 0 then none
            else some (createLoop overwrite cur.1 items (c :: rest) 0
              (if cur.2 ≥ n then 0 else cur.2)).2.1⟩ := by
        rw [handleBatchCreateClips, hcur]
      refine ⟨_, heq, ?_, ?_, ?_⟩
      · dsimp only
        exact createLoop_count overwrite cur.1 items (c :: rest) 0 _
      · dsimp only
        simp
      · dsimp only
        by_cases h : (createLoop overwrite cur.1 items (c :: rest) 0
            (if cur.2 ≥ n then 0 else cur.2)).2.1.length = 0 <;> simp [h]

/-- C3 witness: two moves in which the first fails; setup succeeds and
the aggregate equations hold. -/
theorem batch_partial_failure_witness :
    ∃ res, handleBatchMoveNotes ⟨0, 0, false, "", ""⟩ 0 none none
        (fun i => if i = 0 then .error "x" else .ok ())
        [⟨0, 0, none, none⟩, ⟨0, 0, none, none⟩] = .ok res ∧
      res.completed + res.failed = 2 ∧
      (res.success = true ↔ res.failed = 0) ∧
      (res.errors = none ↔ res.failed = 0) :=
  (batch_partial_failure ⟨0, 0, false, "", ""⟩ 0 none none
    (fun i => if i = 0 then .error "x" else .ok ())
    [⟨0, 0, none, none⟩, ⟨0, 0, none, none⟩] (.ok 0) okItemEnv
    (fun _ => okItemEnv) [] false).1 rfl

/-- C3 counterexample: with an empty caller-supplied list (n = 0),
`handleBatchCreateClips` synthesizes one implicit item and reports
completed + failed = 1, so the stated completed + failed = n fails. -/
theorem batch_zero_items_cx :
    handleBatchCreateClips ⟨0, 0, false, "", ""⟩ (.ok 4) okItemEnv
        (fun _ => okItemEnv) (some []) false =
      .ok ⟨true, 1, 0, some [⟨1, 1, 4, none⟩], some 4, none, none⟩ ∧
    (1 : Nat) + 0 ≠ ([] : List ClipSpec).length :=
  ⟨rfl, by decide⟩

/-- C8 (amended): positional batch handlers such as batch_move_notes tag
each error with the 0-based position of the failing item in the caller
list, but `handleBatchDeleteTracks` tags each error with the 1-based
user index of the track whose deletion failed (`toUser` of the internal
index at that position of the descending-sorted deletion sequence), not
with the caller-list position. -/
theorem error_index_tagging (sel : Selection) (delay : Nat)
    (trackIndex? slotIndex? : Option Int)
    (outcome : Nat → Except String Unit) (moves : List Move)
    (outcome2 : Nat → Except String Unit) (ts : List Int) :
    (∀ res, handleBatchMoveNotes sel delay trackIndex? slotIndex? outcome
        moves = .ok res →
      ∀ ent, ent ∈ res.errors.getD [] ↔
        ∃ k, k < moves.length ∧ outcome k = .error ent.error ∧
          ent.index = (k : Int)) ∧
    (∀ ent,
      ent ∈ (handleBatchDeleteTracks outcome2 ts).1.errors.getD [] ↔
        ∃ k, k < ts.length ∧ outcome2 k = .error ent.error ∧
          ent.index = toUser ((jsSortDesc (ts.map toInternal)).getD k 0)) := by
  constructor
  · intro res hres ent
    rcases hsel : selectClipIfNeeded sel delay trackIndex? slotIndex?
      with ⟨o, tr⟩
    rcases o with e | u
    · rw [handleBatchMoveNotes, hsel] at hres
      exact Except.noConfusion hres
    · cases u
      have heq : handleBatchMoveNotes sel delay trackIndex? slotIndex?
          outcome moves =
          .ok ⟨(moveLoop outcome moves 0).2.length = 0,
            (moveLoop outcome moves 0).1,
            (moveLoop outcome moves 0).2.length,
            if (moveLoop outcome moves 0).2.length = 0 then none
            else some (moveLoop outcome moves 0).2⟩ := by
        rw [handleBatchMoveNotes, hsel]
      rw [heq] at hres
      obtain rfl := (Except.ok.injEq ..).mp hres
      have hmem := moveLoop_errors_mem outcome moves 0 ent
      simp only [Nat.zero_add] at hmem
      dsimp only
      rw [errorsField_getD]
      exact hmem
  · intro ent
    have heq : (handleBatchDeleteTracks outcome2 ts).1.errors =
        (if (deleteLoop outcome2 (jsSortDesc (ts.map toInternal))
            0).2.1.length = 0 then none
         else some (deleteLoop outcome2 (jsSortDesc (ts.map toInternal))
            0).2.1) := by
      rw [handleBatchDeleteTracks]
    rw [heq, errorsField_getD]
    have hmem := deleteLoop_errors_mem outcome2
      (jsSortDesc (ts.map toInternal)) 0 ent
    simp only [Nat.zero_add] at hmem
    rw [hmem]
    have hlen : (jsSortDesc (ts.map toInternal)).length = ts.length := by
      rw [jsSortDesc, List.length_insertionSort, List.length_map]
    simp only [hlen]

/-- C8 witness: deleting user track 5 with a failing backend produces an
error entry tagged 5 (the 1-based track index). -/
theorem error_index_tagging_witness :
    (⟨5, "boom"⟩ : ErrEntry) ∈
      (handleBatchDeleteTracks (fun _ => Except.error "boom")
        [5]).1.errors.getD [] :=
  ((error_index_tagging ⟨0, 0, false, "", ""⟩ 0 none none
      (fun _ => Except.ok ()) [] (fun _ => Except.error "boom") [5]).2
    ⟨5, "boom"⟩).mpr ⟨0, by decide, rfl, by decide⟩

/-- C8 counterexample: for the 1-item batch [5] whose only delete fails,
the error entry carries index 5, not the 0-based caller-list position
0. -/
theorem error_index_position_cx :
    (handleBatchDeleteTracks (fun _ => Except.error "boom")
        [5]).1.errors = some [⟨5, "boom"⟩] ∧ (5 : Int) ≠ 0 :=
  ⟨rfl, by decide⟩
